import Mathlib

/-!
Shallow embedding of `code_analyzer.py` (class `CodeAnalyzer`) from the
repository `dynamiccodeanalysis`, together with proofs settling the frozen
claims about its specification.

Python strings are modelled as `List Char` (code-point sequences), so that
Python's string comparison (used by `dir()`, which returns the attribute
names of a module sorted ascending), substring test (`in`) and `str.lower`
become the lexicographic order, `List.IsInfix` and `List.map Char.toLower`
on character lists.
-/

namespace DCA

/-- A Python string: its sequence of code points. -/
abbrev Str := List Char

/-- Behaviour of calling a module attribute with no arguments
(`test_func()` in `run_test_with_profiling`): it either returns normally
(the return value is discarded by the caller, so it is not modelled), or
raises an exception whose `str(e)` is `msg`.  An attribute that is not
callable behaves like a call raising `TypeError`, which the harness
catches like any other exception, so it needs no separate constructor. -/
inductive CallResult
  | ret
  | exc (msg : Str)
deriving DecidableEq, Repr

/-- A loaded Python module: its `__dict__`, i.e. the attribute names with
the call behaviour of each attribute.  Keys of a Python module dict are
unique; theorems that need this take a `Nodup` hypothesis. -/
structure PyModule where
  attrs : List (Str × CallResult)
deriving DecidableEq, Repr

/-- Outcome of `importlib.util.spec_from_file_location` +
`exec_module` on one path: either the executed module, or the message of
the exception raised while loading (missing file, syntax error, or an
exception raised by the file's own top-level code). -/
inductive LoadOutcome
  | ok (m : PyModule)
  | err (msg : Str)
deriving DecidableEq, Repr

/-- The file system, as consulted by the loader: what loading each path
produces. -/
abbrev FileSystem := Str → LoadOutcome

/-- Pass/fail status of one test callable. -/
inductive Status
  | passed
  | failed
deriving DecidableEq, Repr

/-- One entry of the per-test outcome sequence:
`(name, status, detail)` where `detail` carries the exception message of a
failed test. -/
structure TestOutcome where
  name : Str
  status : Status
  detail : Option Str
deriving DecidableEq, Repr

/-- `dir(test_module)`: the attribute names of the module, deduplicated and
sorted ascending by string comparison (CPython's `dir` sorts the keys). -/
def dirNames (m : PyModule) : List Str :=
  List.insertionSort (· ≤ ·) (m.attrs.map Prod.fst).dedup

/-- The filtering in the execution loop: `name.startswith('test_')`. -/
def isTestName (n : Str) : Bool :=
  List.isPrefixOf "test_".data n

/-- The names the loop at lines 47-48 iterates over: `dir(test_module)`
filtered to the `test_` naming convention. -/
def testNames (m : PyModule) : List Str :=
  (dirNames m).filter isTestName

/-- `getattr(test_module, name)` followed by the call: the behaviour
attached to `name`.  `dir` only yields existing attribute names, so the
`none` branch is unreachable on names coming from `testNames`. -/
def callAttr (m : PyModule) (n : Str) : CallResult :=
  match m.attrs.lookup n with
  | some r => r
  | none => .ret

/-- One iteration of the loop at lines 50-54, as the structured outcome
the spec's Discovery contract describes: a normal return is recorded
`(name, passed, none)`, a raised exception `(name, failed, str(e))`. -/
def runOne (m : PyModule) (n : Str) : TestOutcome :=
  match callAttr m n with
  | .ret => ⟨n, .passed, none⟩
  | .exc msg => ⟨n, .failed, some msg⟩

/-- The whole discovery-and-execution loop (lines 47-54): every `test_`
name in `dir` order, each invoked with no arguments, exceptions caught per
callable. -/
def runTests (m : PyModule) : List TestOutcome :=
  (testNames m).map (runOne m)

/-- The line appended to `test_output` for one test (lines 52 and 54):
`f"Test {name} passed"` or `f"Test {name} failed: {str(e)}"`. -/
def testLine (n : Str) : CallResult → Str
  | .ret => "Test ".data ++ n ++ " passed".data
  | .exc msg => "Test ".data ++ n ++ " failed: ".data ++ msg

/-- The formatted line of one recorded outcome. -/
def outcomeLine (o : TestOutcome) : Str :=
  match o.status, o.detail with
  | .passed, _ => "Test ".data ++ o.name ++ " passed".data
  | .failed, d => "Test ".data ++ o.name ++ " failed: ".data ++ d.getD []

/-- The `test_output` list built by the loop, one line per executed test. -/
def outputLines (m : PyModule) : List Str :=
  (testNames m).map fun n => testLine n (callAttr m n)

/-- `"\n".join(lines)` (line 71). -/
def joinLines : List Str → Str
  | [] => []
  | [l] => l
  | l :: l2 :: ls => l ++ '\n' :: joinLines (l2 :: ls)

/-- `s.lower()`, on code points (ASCII-faithful). -/
def lowerStr (s : Str) : Str := s.map Char.toLower

/-- The dict returned by `run_test_with_profiling` (lines 68-78).
`test_output` is the newline-joined line list; the instrument readings
(profiler stats text, wall-clock times, traced memory) are numbers the
instruments report for the run. -/
structure ProfileRecord where
  test_file : Str
  test_output : Str
  timestamp : Str
  execution_time : Int
  profile_stats : Str
  memory_current : Nat
  memory_peak : Nat
deriving DecidableEq, Repr

/-- What the instruments and clocks report for one run of one path: the
quantities the harness merely reads and stores.  Modelling them as an
environment indexed by path keeps the embedding deterministic without
fixing the physical measurements. -/
structure InstrReadings where
  profileStats : Str
  startTime : Int
  endTime : Int
  memCurrent : Nat
  memPeak : Nat
  timestamp : Str
deriving DecidableEq, Repr

/-- Readings environment: instrument readings per profiled path. -/
abbrev Readings := Str → InstrReadings

/-- The process-global state the session touches: whether `tracemalloc`
is tracing, whether the `cProfile` profiler is enabled, and the value of
`sys.modules["test_module"]` (tagged by the source path of the module
stored there). -/
structure SysState where
  tracemallocActive : Bool
  profilerActive : Bool
  testModuleEntry : Option Str
deriving DecidableEq, Repr

/-- The observable steps of `run_test_with_profiling`, in the order the
code performs them; used to state window/ordering properties. -/
inductive Event
  | memStart
  | loadModule
  | profEnable
  | recordStartTime
  | callTests
  | recordEndTime
  | profDisable
  | memRead
  | memStop
deriving DecidableEq, Repr

instance {ε α : Type} [DecidableEq ε] [DecidableEq α] :
    DecidableEq (Except ε α) := fun a b =>
  match a, b with
  | .error e, .error f =>
      if h : e = f then .isTrue (by rw [h])
      else .isFalse fun hh => h (by injection hh)
  | .error _, .ok _ => .isFalse fun hh => by injection hh
  | .ok _, .error _ => .isFalse fun hh => by injection hh
  | .ok a, .ok b =>
      if h : a = b then .isTrue (by rw [h])
      else .isFalse fun hh => h (by injection hh)

/-- Result of one call to `run_test_with_profiling`: the returned dict or
the propagated exception, the process-global state on exit, and the trace
of performed steps. -/
structure RunResult where
  result : Except Str ProfileRecord
  state : SysState
  trace : List Event
deriving DecidableEq, Repr

/-- `CodeAnalyzer.run_test_with_profiling` (lines 28-78).  The code has no
`try`/`finally`: `tracemalloc.start()` runs first, then the module is
loaded (`sys.modules["test_module"]` is assigned before `exec_module`
runs the file), and only on the successful path do `pr.enable()`, the
test loop, `pr.disable()` and `tracemalloc.stop()` follow.  An exception
raised while loading therefore propagates with memory tracing still
active and the profiler never enabled. -/
def run_test_with_profiling (fs : FileSystem) (rd : Readings) (path : Str)
    (st : SysState) : RunResult :=
  let st1 : SysState := { st with tracemallocActive := true }
  match fs path with
  | .err msg =>
      { result := .error msg
        state := { st1 with testModuleEntry := some path }
        trace := [.memStart, .loadModule] }
  | .ok m =>
      let st2 : SysState := { st1 with testModuleEntry := some path }
      let st3 : SysState := { st2 with profilerActive := true }
      let st4 : SysState := { st3 with profilerActive := false }
      let st5 : SysState := { st4 with tracemallocActive := false }
      let r := rd path
      { result := .ok
          { test_file := path
            test_output := joinLines (outputLines m)
            timestamp := r.timestamp
            execution_time := r.endTime - r.startTime
            profile_stats := r.profileStats
            memory_current := r.memCurrent
            memory_peak := r.memPeak }
        state := st5
        trace := [.memStart, .loadModule, .profEnable, .recordStartTime,
                  .callTests, .recordEndTime, .profDisable, .memRead, .memStop] }

/-- The dict a successful run of `run_test_with_profiling` returns for a
path whose load produced `m`, under readings `rd` (lines 68-78). -/
def builtRecord (rd : Readings) (path : Str) (m : PyModule) : ProfileRecord :=
  { test_file := path
    test_output := joinLines (outputLines m)
    timestamp := (rd path).timestamp
    execution_time := (rd path).endTime - (rd path).startTime
    profile_stats := (rd path).profileStats
    memory_current := (rd path).memCurrent
    memory_peak := (rd path).memPeak }

/-- The derived overall status of `_format_profiling_results` (line 333):
`FAILED` exactly when the substring `"failed"` occurs in
`test_output.lower()`, else `PASSED`. -/
def overallStatus (r : ProfileRecord) : Status :=
  if "failed".data <:+: lowerStr r.test_output then .failed else .passed

/-- Outcome of the `requests.post` + `response.raise_for_status()` +
`response.json()` sequence in `analyze_with_llm` (lines 143-152): either a
parsed JSON object (2xx, well-formed body), or the message of the
exception raised by a network failure (`requests` connection errors) or by
`raise_for_status` on a non-2xx response. -/
inductive HttpOutcome
  | ok (fields : List (Str × Str))
  | httpError (msg : Str)
  | netError (msg : Str)
deriving DecidableEq, Repr

/-- The body of the `try` block at lines 142-154: on a parsed response the
`"response"` field is returned (a missing field raises `KeyError`, which
the same `except Exception` catches); any exception is turned into the
string `f"Error analyzing with LLM: {str(e)}"`. -/
def llmCall (http : HttpOutcome) : Str :=
  match http with
  | .ok fields =>
      match fields.lookup "response".data with
      | some v => v
      | none => "Error analyzing with LLM: ".data ++ "'response'".data
  | .httpError msg => "Error analyzing with LLM: ".data ++ msg
  | .netError msg => "Error analyzing with LLM: ".data ++ msg

/-- The three `analysis_type` values dispatched on at lines 82-115. -/
inductive AnalysisType
  | standard
  | comparative
  | pattern
deriving DecidableEq, Repr

/-- `CodeAnalyzer.analyze_with_llm` (lines 80-154).  The prompt text is
built before the `try` block and flows only into the request body, which
the `HttpOutcome` argument abstracts; the one control-flow-relevant part
of prompt building is that the `standard` branch re-opens
`profile_data['test_file']` (line 117) outside any `try`, so a missing or
unreadable source file raises there (`sourceText = none`) before any
request is made. -/
def analyze_with_llm (ty : AnalysisType) (sourceText : Option Str)
    (http : HttpOutcome) : Except Str Str :=
  match ty with
  | .comparative => .ok (llmCall http)
  | .pattern => .ok (llmCall http)
  | .standard =>
      match sourceText with
      | none => .error "FileNotFoundError".data
      | some _ => .ok (llmCall http)

/-- The dict returned by `compare_implementations` (lines 231-235). -/
structure CompareResult where
  implementation1 : ProfileRecord
  implementation2 : ProfileRecord
  comparative_analysis : Str
deriving DecidableEq, Repr

/-- Result of one call to `compare_implementations`: returned dict or
propagated exception, exit state, and the concatenated step trace. -/
structure CompareRun where
  result : Except Str CompareResult
  state : SysState
  trace : List Event
deriving DecidableEq, Repr

/-- `CodeAnalyzer.compare_implementations` (lines 217-235): profiles
`test_file1`, then `test_file2`, then calls `analyze_with_llm` in
`comparative` mode (which reads no file).  There is no exception handling:
an exception from either `run_test_with_profiling` call propagates, so a
load failure in the first candidate happens before the second candidate's
pipeline starts. -/
def compare_implementations (fs : FileSystem) (rd : Readings)
    (http : HttpOutcome) (file1 file2 : Str) (st : SysState) : CompareRun :=
  let r1 := run_test_with_profiling fs rd file1 st
  match r1.result with
  | .error e => { result := .error e, state := r1.state, trace := r1.trace }
  | .ok p1 =>
      let r2 := run_test_with_profiling fs rd file2 r1.state
      match r2.result with
      | .error e =>
          { result := .error e, state := r2.state, trace := r1.trace ++ r2.trace }
      | .ok p2 =>
          match analyze_with_llm .comparative none http with
          | .error e =>
              { result := .error e, state := r2.state, trace := r1.trace ++ r2.trace }
          | .ok analysis =>
              { result := .ok ⟨p1, p2, analysis⟩
                state := r2.state
                trace := r1.trace ++ r2.trace }

/-- The persisted history file `performance_history.json`: absent, present
but not valid JSON (a corrupt or partial write), or a well-formed JSON
array of serialized ProfileRecords. -/
inductive HistoryFile
  | absent
  | corrupt
  | wellFormed (records : List ProfileRecord)
deriving DecidableEq, Repr

/-- `CodeAnalyzer.save_to_history` (lines 156-166): load the existing
array when the file exists (`json.load` raises on a corrupt file), append
the new record, rewrite the whole array. -/
def save_to_history (h : HistoryFile) (r : ProfileRecord) :
    Except Str HistoryFile :=
  match h with
  | .absent => .ok (.wellFormed [r])
  | .corrupt => .error "json.decoder.JSONDecodeError".data
  | .wellFormed rs => .ok (.wellFormed (rs ++ [r]))

/-- The query step of `plot_performance_history` (lines 170-177): with no
persisted file the function returns a status string and no records; with a
well-formed file it filters the array to entries whose `test_file` equals
the argument, keeping persisted order; `json.load` on a corrupt file
raises. -/
def queryHistory (h : HistoryFile) (path : Str) :
    Except Str (List ProfileRecord) :=
  match h with
  | .absent => .ok []
  | .corrupt => .error "json.decoder.JSONDecodeError".data
  | .wellFormed rs => .ok (rs.filter fun r => r.test_file == path)

/-- Repeated appends, in order (the spec's "appending K records"). -/
def saveAll (h : HistoryFile) : List ProfileRecord → Except Str HistoryFile
  | [] => .ok h
  | r :: rs =>
      match save_to_history h r with
      | .error e => .error e
      | .ok h2 => saveAll h2 rs

end DCA

namespace DCA

section Sanity

/-- Concrete module of the spec's example scenario: `test_ok` returns
normally, `test_fail` raises `AssertionError("x")`, in that definition
order. -/
def exampleModule : PyModule :=
  ⟨[("test_ok".data, .ret), ("test_fail".data, .exc "x".data)]⟩

/-- Initial process state: no instrument active, `sys.modules` without a
`"test_module"` entry. -/
def st0 : SysState := ⟨false, false, none⟩

/-- Concrete instrument-readings environment for witness runs. -/
def rd0 : Readings := fun _ => ⟨[], 0, 0, 0, 0, []⟩

/-- A file system on which every load succeeds with the example module. -/
def fsExample : FileSystem := fun _ => .ok exampleModule

/-- A file system on which every load raises (e.g. the file has a syntax
error). -/
def fsBroken : FileSystem := fun _ => .err "SyntaxError: invalid syntax".data

/-- A file system on which loading `a.py` raises (missing file) while
every other path loads the example module fine. -/
def fsMixed : FileSystem := fun p =>
  if p = "a.py".data then .err "FileNotFoundError".data else .ok exampleModule

/-- A module whose single test passes but whose name contains the word
`"failed"`. -/
def trickyModule : PyModule := ⟨[("test_failed_case".data, .ret)]⟩

/-- A file system on which every load yields `trickyModule`. -/
def fsTricky : FileSystem := fun _ => .ok trickyModule

/-- The record `run_test_with_profiling` builds for `exampleModule` under
the `rd0` readings, for the path `sample.py`. -/
def exampleRecord : ProfileRecord :=
  { test_file := "sample.py".data
    test_output := joinLines (outputLines exampleModule)
    timestamp := []
    execution_time := 0
    profile_stats := []
    memory_current := 0
    memory_peak := 0 }

/-- The record built for `trickyModule` under `rd0`, path `tricky.py`. -/
def trickyRecord : ProfileRecord :=
  { test_file := "tricky.py".data
    test_output := joinLines (outputLines trickyModule)
    timestamp := []
    execution_time := 0
    profile_stats := []
    memory_current := 0
    memory_peak := 0 }

/-- A successful HTTP outcome carrying a generated analysis. -/
def httpOk0 : HttpOutcome := .ok [("response".data, "ok".data)]

/-- The step order claim C7 asserts: both instruments started, the work
invoked, both instruments stopped, with nothing else inside either
window. -/
def claimedSessionOrder : List Event :=
  [.memStart, .profEnable, .recordStartTime, .callTests,
   .recordEndTime, .profDisable, .memRead, .memStop]

example : testNames exampleModule = ["test_fail".data, "test_ok".data] := by decide

example : runTests exampleModule =
    [⟨"test_fail".data, .failed, some "x".data⟩,
     ⟨"test_ok".data, .passed, none⟩] := by decide

example :
    joinLines (outputLines exampleModule) =
      "Test test_fail failed: x\nTest test_ok passed".data := by decide

end Sanity

section InfixLemmas

/-- An occurrence of a pattern inside `xs ++ c :: ys`, where the
character `c` does not occur in the pattern, lies entirely inside `xs` or
entirely inside `ys`. -/
theorem infix_split {c : Char} {pat xs ys : Str} (hc : c ∉ pat)
    (h : pat <:+: xs ++ c :: ys) : pat <:+: xs ∨ pat <:+: ys := by
  obtain ⟨s, t, hst⟩ := h
  by_cases hsp : s.length + pat.length ≤ xs.length
  · left
    have hp1 : s ++ pat <+: xs ++ c :: ys := ⟨t, by simpa [List.append_assoc] using hst⟩
    have hp2 : xs <+: xs ++ c :: ys := List.prefix_append xs (c :: ys)
    have hp3 : s ++ pat <+: xs :=
      List.prefix_of_prefix_length_le hp1 hp2 (by simpa using hsp)
    exact (List.suffix_append s pat).isInfix.trans hp3.isInfix
  · by_cases hsx : xs.length + 1 ≤ s.length
    · right
      have hp1 : s <+: xs ++ c :: ys := ⟨pat ++ t, by simpa [List.append_assoc] using hst⟩
      have hp2 : xs ++ [c] <+: xs ++ c :: ys := ⟨ys, by simp⟩
      have hp3 : xs ++ [c] <+: s :=
        List.prefix_of_prefix_length_le hp2 hp1 (by simpa using hsx)
      obtain ⟨s2, hs2⟩ := hp3
      subst hs2
      have h1 : xs ++ c :: (s2 ++ (pat ++ t)) = xs ++ c :: ys := by
        simpa [List.append_assoc] using hst
      have h2 := List.append_cancel_left h1
      have h3 : s2 ++ (pat ++ t) = ys := by injection h2
      exact ⟨s2, t, by simpa [List.append_assoc] using h3⟩
    · exfalso
      apply hc
      have hb1 : s.length ≤ xs.length := by omega
      have hb2 : xs.length - s.length < pat.length := by omega
      have hL : (xs ++ c :: ys)[xs.length]? = some c := by
        rw [List.getElem?_append_right (Nat.le_refl _)]
        simp
      have hR : (xs ++ c :: ys)[xs.length]? = pat[xs.length - s.length]? := by
        rw [← hst, List.append_assoc, List.getElem?_append_right hb1,
          List.getElem?_append_left hb2]
      rw [hL] at hR
      exact List.getElem?_mem hR.symm

/-- Every line of the list is an infix of the newline-join. -/
theorem infix_joinLines_of_mem {l : Str} {ls : List Str} (h : l ∈ ls) :
    l <:+: joinLines ls := by
  induction ls with
  | nil => cases h
  | cons x rest ih =>
      match rest, h with
      | [], h => rw [List.mem_singleton.mp h]; exact List.infix_refl _
      | y :: rest', h =>
          rcases List.mem_cons.mp h with h1 | h2
          · subst h1
            exact (List.prefix_append l ('\n' :: joinLines (y :: rest'))).isInfix
          · exact ((ih h2).trans
              (List.suffix_append (x ++ ['\n']) (joinLines (y :: rest'))).isInfix).trans
              (by simp [joinLines, List.append_assoc] : _ <:+: joinLines (x :: y :: rest'))

/-- A newline-free, nonempty pattern occurring in the newline-join occurs
in one of the lines. -/
theorem infix_line_of_infix_joinLines {pat : Str} (hnl : '\n' ∉ pat)
    (hne : pat ≠ []) :
    ∀ {ls : List Str}, pat <:+: joinLines ls → ∃ l ∈ ls, pat <:+: l := by
  intro ls
  induction ls with
  | nil =>
      intro h
      exact absurd (List.eq_nil_of_sublist_nil h.sublist) hne
  | cons x rest ih =>
      match rest with
      | [] =>
          intro h
          exact ⟨x, List.mem_singleton_self x, h⟩
      | y :: rest' =>
          intro h
          have h' : pat <:+: x ++ '\n' :: joinLines (y :: rest') := by
            simpa [joinLines] using h
          rcases infix_split hnl h' with hx | hj
          · exact ⟨x, List.mem_cons_self x _, hx⟩
          · obtain ⟨l, hl, hpl⟩ := ih hj
            exact ⟨l, List.mem_cons_of_mem x hl, hpl⟩

end InfixLemmas

section StatusLemmas

theorem lowerStr_append (a b : Str) :
    lowerStr (a ++ b) = lowerStr a ++ lowerStr b :=
  List.map_append Char.toLower a b

theorem lowerStr_joinLines (ls : List Str) :
    lowerStr (joinLines ls) = joinLines (ls.map lowerStr) := by
  induction ls with
  | nil => rfl
  | cons x rest ih =>
      match rest with
      | [] => rfl
      | y :: rest' =>
          show lowerStr (x ++ '\n' :: joinLines (y :: rest')) = _
          rw [lowerStr_append]
          show lowerStr x ++ '\n' :: lowerStr (joinLines (y :: rest')) = _
          rw [ih]
          rfl

theorem outcomeLine_runOne (m : PyModule) (n : Str) :
    outcomeLine (runOne m n) = testLine n (callAttr m n) := by
  unfold runOne outcomeLine testLine
  cases callAttr m n <;> rfl

/-- The formatted line of every recorded outcome is the formatted line of
its name and call behaviour. -/
theorem outputLines_eq_map (m : PyModule) :
    outputLines m = (runTests m).map outcomeLine := by
  unfold outputLines runTests
  rw [List.map_map]
  exact List.map_congr_left fun n _ => (outcomeLine_runOne m n).symm

/-- Lowercasing the line of a failed test exposes the substring
`"failed"`. -/
theorem failed_infix_lower_failed_line (n msg : Str) :
    "failed".data <:+: lowerStr (testLine n (.exc msg)) := by
  show "failed".data <:+: lowerStr ("Test ".data ++ n ++ " failed: ".data ++ msg)
  rw [(by simp [List.append_assoc] :
        "Test ".data ++ n ++ " failed: ".data ++ msg
          = ("Test ".data ++ n) ++ (" failed: ".data ++ msg)),
    lowerStr_append]
  have h1 : "failed".data <:+: lowerStr " failed: ".data := by decide
  have h2 : lowerStr " failed: ".data <:+: lowerStr (" failed: ".data ++ msg) := by
    rw [lowerStr_append]
    exact (List.prefix_append _ _).isInfix
  exact (h1.trans h2).trans (List.suffix_append _ _).isInfix

/-- Conversely, an occurrence of `"failed"` in the lowercased line of a
passed test must lie inside the lowercased test name: the fixed parts
`"test"` and `"passed"` cannot contain it and spaces fence it off. -/
theorem failed_in_name_of_infix_lower_passed_line {n : Str}
    (h : "failed".data <:+: lowerStr (testLine n .ret)) :
    "failed".data <:+: lowerStr n := by
  have hsp : ' ' ∉ "failed".data := by decide
  have hline : lowerStr (testLine n .ret)
      = "test".data ++ ' ' :: (lowerStr n ++ ' ' :: "passed".data) := by
    show lowerStr ("Test ".data ++ n ++ " passed".data) = _
    rw [(by simp [List.append_assoc] :
          "Test ".data ++ n ++ " passed".data
            = "Test ".data ++ (n ++ " passed".data)),
      lowerStr_append, lowerStr_append]
    rfl
  rw [hline] at h
  rcases infix_split hsp h with h1 | h2
  · exact absurd h1 (by decide)
  · rcases infix_split hsp h2 with h3 | h4
    · exact h3
    · exact absurd h4 (by decide)

/-- Unfolding of the derived overall status. -/
theorem overallStatus_failed_iff (r : ProfileRecord) :
    overallStatus r = .failed ↔ "failed".data <:+: lowerStr r.test_output := by
  unfold overallStatus
  by_cases h : "failed".data <:+: lowerStr r.test_output <;> simp [h]

theorem overallStatus_passed_iff (r : ProfileRecord) :
    overallStatus r = .passed ↔ ¬ "failed".data <:+: lowerStr r.test_output := by
  unfold overallStatus
  by_cases h : "failed".data <:+: lowerStr r.test_output <;> simp [h]

/-- A failed outcome forces the derived status of the built record onto
`failed`: the failed test's line carries the substring the status check
searches for. -/
theorem status_failed_of_failed_outcome {m : PyModule} {o : TestOutcome}
    (ho : o ∈ runTests m) (hf : o.status = .failed) :
    "failed".data <:+: lowerStr (joinLines (outputLines m)) := by
  obtain ⟨n, hn, hrun⟩ := List.mem_map.mp ho
  unfold runOne at hrun
  cases hcall : callAttr m n with
  | ret => rw [hcall] at hrun; rw [← hrun] at hf; cases hf
  | exc msg =>
      rw [hcall] at hrun
      have hline : testLine n (.exc msg) ∈ outputLines m := by
        unfold outputLines
        exact List.mem_map.mpr ⟨n, hn, by rw [hcall]⟩
      exact (failed_infix_lower_failed_line n msg).trans
        ((infix_joinLines_of_mem hline).map Char.toLower)

/-- When every test passes and no test name contains `"failed"` after
lowercasing, the status check finds no occurrence in the joined output. -/
theorem status_passed_of_clean_outcomes {m : PyModule}
    (hall : ∀ o ∈ runTests m, o.status = .passed
      ∧ ¬ "failed".data <:+: lowerStr o.name) :
    ¬ "failed".data <:+: lowerStr (joinLines (outputLines m)) := by
  intro h
  rw [lowerStr_joinLines] at h
  obtain ⟨ll, hll, hinf⟩ :=
    infix_line_of_infix_joinLines (by decide) (by decide) h
  obtain ⟨line, hline, hlow⟩ := List.mem_map.mp hll
  rw [outputLines_eq_map] at hline
  obtain ⟨o, ho, holine⟩ := List.mem_map.mp hline
  obtain ⟨n, hn, hrun⟩ := List.mem_map.mp ho
  rcases hall o ho with ⟨hpass, hname⟩
  unfold runOne at hrun
  cases hcall : callAttr m n with
  | exc msg => rw [hcall] at hrun; rw [← hrun] at hpass; cases hpass
  | ret =>
      rw [hcall] at hrun
      apply hname
      rw [← hrun]
      show "failed".data <:+: lowerStr n
      apply failed_in_name_of_infix_lower_passed_line
      have : line = testLine n .ret := by
        rw [← holine, ← hrun]
        rfl
      rw [← hlow, this] at hinf
      exact hinf

end StatusLemmas

section DiscoveryLemmas

/-- On a module dict (unique keys), looking a key up yields its unique
binding. -/
theorem lookup_eq_of_mem_of_nodup {attrs : List (Str × CallResult)}
    {n : Str} {v : CallResult} (hnd : (attrs.map Prod.fst).Nodup)
    (hmem : (n, v) ∈ attrs) : attrs.lookup n = some v := by
  induction attrs with
  | nil => cases hmem
  | cons p rest ih =>
      obtain ⟨k, w⟩ := p
      rw [List.map_cons, List.nodup_cons] at hnd
      rcases List.mem_cons.mp hmem with h1 | h2
      · rw [show n = k by injection h1, show v = w by injection h1]
        simp [List.lookup]
      · have hne : (n == k) = false := by
          refine beq_eq_false_iff_ne.mpr fun he => hnd.1 ?_
          exact he ▸ List.mem_map.mpr ⟨(n, v), h2, rfl⟩
        simp only [List.lookup, hne]
        exact ih hnd.2 h2

/-- A `test_`-marked attribute name is enumerated by the execution loop. -/
theorem mem_testNames {m : PyModule} {n : Str}
    (hk : n ∈ m.attrs.map Prod.fst) (ht : isTestName n = true) :
    n ∈ testNames m := by
  unfold testNames dirNames
  refine List.mem_filter.mpr ⟨?_, ht⟩
  exact (List.perm_insertionSort _ _).mem_iff.mpr (List.mem_dedup.mpr hk)

/-- Each recorded outcome carries the name it was produced for. -/
theorem runOne_name (m : PyModule) (n : Str) : (runOne m n).name = n := by
  unfold runOne
  cases callAttr m n <;> rfl

/-- The outcome sequence is one outcome per enumerated name, in
enumeration order. -/
theorem runTests_names (m : PyModule) :
    (runTests m).map TestOutcome.name = testNames m := by
  unfold runTests
  rw [List.map_map]
  have h1 : (testNames m).map (TestOutcome.name ∘ runOne m)
      = (testNames m).map (fun n => n) :=
    List.map_congr_left fun n _ => runOne_name m n
  rw [h1]
  exact List.map_id' (testNames m)

/-- Exactly one outcome per distinct `test_`-marked attribute. -/
theorem runTests_length (m : PyModule)
    (hnd : (m.attrs.map Prod.fst).Nodup) :
    (runTests m).length = ((m.attrs.map Prod.fst).filter isTestName).length := by
  unfold runTests testNames dirNames
  rw [List.length_map, List.dedup_eq_self.mpr hnd]
  exact ((List.perm_insertionSort (· ≤ ·) _).filter isTestName).length_eq

/-- The enumeration order of the loop is ascending lexicographic name
order (`dir` sorts). -/
theorem testNames_sorted (m : PyModule) :
    List.Sorted (· ≤ ·) (testNames m) :=
  List.Sorted.filter isTestName (List.sorted_insertionSort (· ≤ ·) _)

/-- The enumeration is a pure function of the set of `test_`-marked
attribute names: sorting the filtered keys. -/
theorem testNames_eq_sort_filter (m : PyModule)
    (hnd : (m.attrs.map Prod.fst).Nodup) :
    testNames m
      = List.insertionSort (· ≤ ·) ((m.attrs.map Prod.fst).filter isTestName) := by
  refine List.eq_of_perm_of_sorted ?_ (testNames_sorted m)
    (List.sorted_insertionSort (· ≤ ·) _)
  unfold testNames dirNames
  rw [List.dedup_eq_self.mpr hnd]
  exact ((List.perm_insertionSort (· ≤ ·) _).filter isTestName).trans
    (List.perm_insertionSort (· ≤ ·) _).symm

/-- A `test_`-marked attribute that raises is recorded failed, with the
exception text, in the outcome sequence. -/
theorem runTests_mem_of_exc {m : PyModule} {n msg : Str}
    (hnd : (m.attrs.map Prod.fst).Nodup) (hmem : (n, .exc msg) ∈ m.attrs)
    (ht : isTestName n = true) :
    (⟨n, .failed, some msg⟩ : TestOutcome) ∈ runTests m := by
  have hn := mem_testNames (List.mem_map.mpr ⟨(n, .exc msg), hmem, rfl⟩) ht
  refine List.mem_map.mpr ⟨n, hn, ?_⟩
  unfold runOne callAttr
  rw [lookup_eq_of_mem_of_nodup hnd hmem]

/-- A `test_`-marked attribute that returns normally is recorded passed,
with no detail. -/
theorem runTests_mem_of_ret {m : PyModule} {n : Str}
    (hnd : (m.attrs.map Prod.fst).Nodup) (hmem : (n, .ret) ∈ m.attrs)
    (ht : isTestName n = true) :
    (⟨n, .passed, none⟩ : TestOutcome) ∈ runTests m := by
  have hn := mem_testNames (List.mem_map.mpr ⟨(n, .ret), hmem, rfl⟩) ht
  refine List.mem_map.mpr ⟨n, hn, ?_⟩
  unfold runOne callAttr
  rw [lookup_eq_of_mem_of_nodup hnd hmem]

end DiscoveryLemmas

section HistoryLemmas

/-- Appending to a well-formed store always succeeds and concatenates,
in order. -/
theorem saveAll_wellFormed (l rs : List ProfileRecord) :
    saveAll (.wellFormed l) rs = .ok (.wellFormed (l ++ rs)) := by
  induction rs generalizing l with
  | nil => simp [saveAll]
  | cons r rest ih =>
      show saveAll (.wellFormed (l ++ [r])) rest = _
      rw [ih]
      simp

theorem filter_matches_self {p : Str} {rs : List ProfileRecord}
    (h : ∀ r ∈ rs, r.test_file = p) :
    (rs.filter fun r => r.test_file == p) = rs :=
  List.filter_eq_self.mpr fun r hr => beq_iff_eq.mpr (h r hr)

theorem filter_matches_nil {p : Str} {rs : List ProfileRecord}
    (h : ∀ r ∈ rs, r.test_file ≠ p) :
    (rs.filter fun r => r.test_file == p) = [] := by
  rw [List.filter_eq_nil_iff]
  intro r hr
  simpa using h r hr

end HistoryLemmas

section SessionLemmas

/-- The returned dict of one profiled run does not depend on the
process-global state the run starts from: it is a function of the file
and the instrument readings alone. -/
theorem run_result_state_indep (fs : FileSystem) (rd : Readings) (path : Str)
    (st st' : SysState) :
    (run_test_with_profiling fs rd path st).result
      = (run_test_with_profiling fs rd path st').result := by
  unfold run_test_with_profiling
  cases fs path <;> rfl

end SessionLemmas

section RunLemmas

/-- One profiled run on a loadable unit: the whole call result, spelled
out.  Both instruments end stopped, the `sys.modules` entry holds this
path's module, and the step trace is the full session. -/
theorem run_ok {fs : FileSystem} {rd : Readings} {path : Str}
    {st : SysState} {m : PyModule} (h : fs path = .ok m) :
    run_test_with_profiling fs rd path st
      = { result := .ok (builtRecord rd path m)
          state := { tracemallocActive := false
                     profilerActive := false
                     testModuleEntry := some path }
          trace := [.memStart, .loadModule, .profEnable, .recordStartTime,
                    .callTests, .recordEndTime, .profDisable, .memRead,
                    .memStop] } := by
  unfold run_test_with_profiling
  rw [h]
  rfl

/-- Projection of `run_ok` to the returned dict. -/
theorem run_result_ok {fs : FileSystem} {rd : Readings} {path : Str}
    {st : SysState} {m : PyModule} (h : fs path = .ok m) :
    (run_test_with_profiling fs rd path st).result
      = .ok (builtRecord rd path m) := by
  rw [run_ok h]

/-- One profiled run on a unit whose load raises: the whole call result,
spelled out.  Memory tracing is left running, the profiler was never
touched, and the `sys.modules` entry was already overwritten. -/
theorem run_result_err {fs : FileSystem} {rd : Readings} {path : Str}
    {st : SysState} {e : Str} (h : fs path = .err e) :
    run_test_with_profiling fs rd path st
      = { result := .error e
          state := { tracemallocActive := true
                     profilerActive := st.profilerActive
                     testModuleEntry := some path }
          trace := [.memStart, .loadModule] } := by
  unfold run_test_with_profiling
  rw [h]

/-- Comparison with both candidates loadable: the full call result — the
two records of the two sequential runs, the analysis of the collaborator
call, the state left by the second run, and the concatenated traces. -/
theorem compare_ok {fs : FileSystem} {rd : Readings} {http : HttpOutcome}
    {f1 f2 : Str} {st : SysState} {m1 m2 : PyModule}
    (h1 : fs f1 = .ok m1) (h2 : fs f2 = .ok m2) :
    compare_implementations fs rd http f1 f2 st
      = { result := .ok ⟨builtRecord rd f1 m1, builtRecord rd f2 m2,
                          llmCall http⟩
          state := { tracemallocActive := false
                     profilerActive := false
                     testModuleEntry := some f2 }
          trace := [.memStart, .loadModule, .profEnable, .recordStartTime,
                    .callTests, .recordEndTime, .profDisable, .memRead,
                    .memStop]
            ++ [.memStart, .loadModule, .profEnable, .recordStartTime,
                .callTests, .recordEndTime, .profDisable, .memRead,
                .memStop] } := by
  unfold compare_implementations
  rw [run_ok h1]
  dsimp only
  rw [run_ok h2]
  dsimp only [analyze_with_llm]

/-- Comparison whose first candidate fails to load: the exception
propagates before the second candidate's pipeline performs any step. -/
theorem compare_err1 {fs : FileSystem} {rd : Readings} {http : HttpOutcome}
    {f1 f2 : Str} {st : SysState} {e : Str} (h1 : fs f1 = .err e) :
    compare_implementations fs rd http f1 f2 st
      = { result := .error e
          state := { tracemallocActive := true
                     profilerActive := st.profilerActive
                     testModuleEntry := some f1 }
          trace := [.memStart, .loadModule] } := by
  unfold compare_implementations
  rw [run_result_err h1]

/-- Comparison whose second candidate fails to load: the first
candidate's run completed, but the exception propagates and its record is
discarded. -/
theorem compare_err2 {fs : FileSystem} {rd : Readings} {http : HttpOutcome}
    {f1 f2 : Str} {st : SysState} {m1 : PyModule} {e : Str}
    (h1 : fs f1 = .ok m1) (h2 : fs f2 = .err e) :
    compare_implementations fs rd http f1 f2 st
      = { result := .error e
          state := { tracemallocActive := true
                     profilerActive := false
                     testModuleEntry := some f2 }
          trace := [.memStart, .loadModule, .profEnable, .recordStartTime,
                    .callTests, .recordEndTime, .profDisable, .memRead,
                    .memStop]
            ++ [.memStart, .loadModule] } := by
  unfold compare_implementations
  rw [run_ok h1]
  dsimp only
  rw [run_result_err h2]

end RunLemmas

section Claims

/-- Claim C1 (corrected): the session has no guaranteed-release
construct.  On the normal path — the unit loads, however its individual
tests fare — both instruments are stopped before the call returns; but
when loading raises, the exception propagates with memory tracing still
active (and the CPU profiler, never yet enabled, keeping its prior
state). -/
theorem claim1_instr_release_amended (fs : FileSystem) (rd : Readings)
    (path : Str) (st : SysState) :
    ((∃ m, fs path = .ok m) →
      (run_test_with_profiling fs rd path st).state.tracemallocActive = false
        ∧ (run_test_with_profiling fs rd path st).state.profilerActive = false)
    ∧ (∀ e, fs path = .err e →
        (run_test_with_profiling fs rd path st).result = .error e
          ∧ (run_test_with_profiling fs rd path st).state.tracemallocActive = true
          ∧ (run_test_with_profiling fs rd path st).state.profilerActive
              = st.profilerActive) := by
  constructor
  · rintro ⟨m, hm⟩
    unfold run_test_with_profiling
    rw [hm]
    exact ⟨rfl, rfl⟩
  · intro e he
    rw [run_result_err he]
    exact ⟨rfl, rfl, rfl⟩

/-- Witness for C1 (amended): a concrete successful run ends with both
instruments stopped. -/
theorem claim1_witness :
    (run_test_with_profiling fsExample rd0 "sample.py".data st0).state.tracemallocActive
        = false
      ∧ (run_test_with_profiling fsExample rd0 "sample.py".data st0).state.profilerActive
        = false :=
  (claim1_instr_release_amended fsExample rd0 "sample.py".data st0).1
    ⟨exampleModule, rfl⟩

/-- Counterexample to C1 as stated: a unit whose load raises makes
`run_test_with_profiling` raise while memory tracing is still active, so
an instrument does remain active after the session raises. -/
theorem claim1_counterexample :
    (run_test_with_profiling fsBroken rd0 "bad.py".data st0).result
        = .error "SyntaxError: invalid syntax".data
      ∧ (run_test_with_profiling fsBroken rd0 "bad.py".data st0).state.tracemallocActive
        = true :=
  ⟨rfl, rfl⟩

/-- Claim C2 (corrected): one run consults only its own candidate's file,
and when both candidates load, `compare_implementations` returns exactly
the records of the two independent runs; but there is no exception
isolation — a load failure in the first candidate propagates before the
second candidate's pipeline performs a single step, and a load failure in
the second discards the comparison. -/
theorem claim2_isolation_amended :
    (∀ (fs fs' : FileSystem) (rd : Readings) (path : Str) (st : SysState),
        fs path = fs' path →
        run_test_with_profiling fs rd path st
          = run_test_with_profiling fs' rd path st)
    ∧ (∀ (fs : FileSystem) (rd : Readings) (http : HttpOutcome) (f1 f2 : Str)
          (st : SysState) (m1 m2 : PyModule),
        fs f1 = .ok m1 → fs f2 = .ok m2 →
        ∃ cr : CompareResult,
          (compare_implementations fs rd http f1 f2 st).result = .ok cr
            ∧ Except.ok cr.implementation1
                = (run_test_with_profiling fs rd f1 st).result
            ∧ Except.ok cr.implementation2
                = (run_test_with_profiling fs rd f2 st).result)
    ∧ (∀ (fs : FileSystem) (rd : Readings) (http : HttpOutcome) (f1 f2 : Str)
          (st : SysState) (e : Str),
        fs f1 = .err e →
        (compare_implementations fs rd http f1 f2 st).result = .error e
          ∧ (compare_implementations fs rd http f1 f2 st).trace
              = [.memStart, .loadModule]) := by
  refine ⟨?_, ?_, ?_⟩
  · intro fs fs' rd path st h
    unfold run_test_with_profiling
    rw [h]
  · intro fs rd http f1 f2 st m1 m2 h1 h2
    refine ⟨⟨builtRecord rd f1 m1, builtRecord rd f2 m2, llmCall http⟩,
      ?_, ?_, ?_⟩
    · rw [compare_ok h1 h2]
    · rw [run_result_ok h1]
    · rw [run_result_ok h2]
  · intro fs rd http f1 f2 st e h1
    rw [compare_err1 h1]
    exact ⟨rfl, rfl⟩

/-- Witness for C2 (amended): with both candidates loadable, the
comparison result packages the two independent run records. -/
theorem claim2_witness :
    ∃ cr : CompareResult,
      (compare_implementations fsExample rd0 httpOk0 "a.py".data "b.py".data
          st0).result = .ok cr
        ∧ Except.ok cr.implementation1
            = (run_test_with_profiling fsExample rd0 "a.py".data st0).result
        ∧ Except.ok cr.implementation2
            = (run_test_with_profiling fsExample rd0 "b.py".data st0).result :=
  claim2_isolation_amended.2.1 fsExample rd0 httpOk0 "a.py".data "b.py".data
    st0 exampleModule exampleModule rfl rfl

/-- Counterexample to C2 as stated: candidate A's file is missing while
candidate B is perfectly loadable, yet the comparison raises after A's
failed load with a trace showing candidate B's pipeline never started. -/
theorem claim2_counterexample :
    (compare_implementations fsMixed rd0 httpOk0 "a.py".data "b.py".data
        st0).result = .error "FileNotFoundError".data
      ∧ (compare_implementations fsMixed rd0 httpOk0 "a.py".data "b.py".data
          st0).trace = [.memStart, .loadModule]
      ∧ fsMixed "b.py".data = .ok exampleModule := by
  refine ⟨?_, ?_, ?_⟩ <;> rfl

/-- Claim C3 (corrected): on the unit defining `test_ok` (returns) and
`test_fail` (raises `AssertionError("x")`), execution returns the two
expected outcomes but with `test_fail` FIRST — `dir()` enumerates
attribute names in ascending lexicographic order, not definition order —
and the derived overall status of the built record is `failed`. -/
theorem claim3_example_scenario_amended :
    runTests exampleModule
        = [⟨"test_fail".data, .failed, some "x".data⟩,
           ⟨"test_ok".data, .passed, none⟩]
      ∧ (run_test_with_profiling fsExample rd0 "sample.py".data st0).result
          = .ok exampleRecord
      ∧ overallStatus exampleRecord = .failed := by
  refine ⟨by decide, rfl, by decide⟩

/-- Counterexample to C3 as stated: execution does not return the
outcome of `test_ok` first. -/
theorem claim3_counterexample :
    runTests exampleModule
      ≠ [⟨"test_ok".data, .passed, none⟩,
         ⟨"test_fail".data, .failed, some "x".data⟩] := by
  decide

/-- Claim C4 (corrected): a failed outcome always drives the derived
overall status to `failed`; but the status is computed by searching the
lowercased joined output for the substring `"failed"`, so a record whose
tests all pass is only reported `passed` when no test name contains
`"failed"` after lowercasing. -/
theorem claim4_overall_status_amended (fs : FileSystem) (rd : Readings)
    (path : Str) (st : SysState) (m : PyModule) (rec : ProfileRecord)
    (hfs : fs path = .ok m)
    (hrun : (run_test_with_profiling fs rd path st).result = .ok rec) :
    ((∃ o ∈ runTests m, o.status = .failed) → overallStatus rec = .failed)
      ∧ ((∀ o ∈ runTests m, o.status = .passed
            ∧ ¬ "failed".data <:+: lowerStr o.name)
          → overallStatus rec = .passed) := by
  rw [run_result_ok hfs] at hrun
  have hout : rec.test_output = joinLines (outputLines m) := by
    have := hrun
    injection this with h2
    rw [← h2]
    rfl
  constructor
  · rintro ⟨o, ho, hof⟩
    rw [overallStatus_failed_iff, hout]
    exact status_failed_of_failed_outcome ho hof
  · intro hall
    rw [overallStatus_passed_iff, hout]
    exact status_passed_of_clean_outcomes hall

/-- Witness for C4 (amended): the example record, carrying one failed
test, is reported `failed`. -/
theorem claim4_witness : overallStatus exampleRecord = .failed :=
  (claim4_overall_status_amended fsExample rd0 "sample.py".data st0
      exampleModule exampleRecord rfl rfl).1
    ⟨⟨"test_fail".data, .failed, some "x".data⟩, by decide, rfl⟩

/-- Counterexample to C4 as stated: a unit whose single test passes but
is named `test_failed_case` produces a record with no failed outcome that
the analyzer nevertheless reports as `failed`. -/
theorem claim4_counterexample :
    (∀ o ∈ runTests trickyModule, o.status = .passed)
      ∧ (run_test_with_profiling fsTricky rd0 "tricky.py".data st0).result
          = .ok trickyRecord
      ∧ overallStatus trickyRecord = .failed := by
  refine ⟨by decide, rfl, by decide⟩

/-- Claim C5: for every unit (unique attribute names) with N
`test_`-marked attributes, execution records exactly N outcomes, in the
stable order given by sorting the marked names; an attribute that raises
is recorded `(name, failed, message)` without stopping the batch, and one
that returns normally is recorded `(name, passed, none)`. -/
theorem claim5_batch_execution (m : PyModule)
    (hnd : (m.attrs.map Prod.fst).Nodup) :
    (runTests m).length
        = ((m.attrs.map Prod.fst).filter isTestName).length
      ∧ (runTests m).map TestOutcome.name
          = List.insertionSort (· ≤ ·)
              ((m.attrs.map Prod.fst).filter isTestName)
      ∧ (∀ n msg, (n, .exc msg) ∈ m.attrs → isTestName n = true →
          (⟨n, .failed, some msg⟩ : TestOutcome) ∈ runTests m)
      ∧ (∀ n, (n, .ret) ∈ m.attrs → isTestName n = true →
          (⟨n, .passed, none⟩ : TestOutcome) ∈ runTests m) := by
  refine ⟨runTests_length m hnd, ?_, ?_, ?_⟩
  · rw [runTests_names]
    exact testNames_eq_sort_filter m hnd
  · intro n msg hm ht
    exact runTests_mem_of_exc hnd hm ht
  · intro n hm ht
    exact runTests_mem_of_ret hnd hm ht

/-- Witness for C5: the example unit has two `test_` attributes and gets
exactly two outcomes. -/
theorem claim5_witness :
    (runTests exampleModule).length
      = ((exampleModule.attrs.map Prod.fst).filter isTestName).length :=
  (claim5_batch_execution exampleModule (by decide)).1

/-- Claim C6: history round-trip — after an append the appended record is
the last query result for its path; appending K same-path records to a
store holding none for that path yields exactly those K records in append
order on query, and leaves the query result of every other path
unchanged. -/
theorem claim6_history_roundtrip :
    (∀ (h h2 : HistoryFile) (r : ProfileRecord),
        save_to_history h r = .ok h2 →
        ∃ l, queryHistory h2 r.test_file = .ok l ∧ l.getLast? = some r)
    ∧ (∀ (h h2 : HistoryFile) (p : Str) (ks : List ProfileRecord),
        (∀ r ∈ ks, r.test_file = p) →
        queryHistory h p = .ok [] →
        saveAll h ks = .ok h2 →
        queryHistory h2 p = .ok ks
          ∧ ∀ q : Str, q ≠ p → queryHistory h2 q = queryHistory h q) := by
  constructor
  · intro h h2 r hsave
    cases h with
    | absent =>
        have hh2 : h2 = .wellFormed [r] := by injection hsave with h3; rw [← h3]
        subst hh2
        refine ⟨[r], ?_, rfl⟩
        show Except.ok ([r].filter fun s => s.test_file == r.test_file) = _
        rw [filter_matches_self fun s hs => by rw [List.mem_singleton.mp hs]]
    | corrupt => cases hsave
    | wellFormed rs =>
        have hh2 : h2 = .wellFormed (rs ++ [r]) := by
          injection hsave with h3; rw [← h3]
        subst hh2
        refine ⟨(rs ++ [r]).filter fun s => s.test_file == r.test_file, rfl, ?_⟩
        have hsing : ([r].filter fun s => s.test_file == r.test_file) = [r] :=
          filter_matches_self fun s hs => by rw [List.mem_singleton.mp hs]
        rw [List.filter_append, hsing]
        exact List.getLast?_concat _
  · intro h h2 p ks hks hq0 hsave
    cases h with
    | corrupt => cases hq0
    | absent =>
        cases ks with
        | nil =>
            have hh2 : h2 = .absent := by injection hsave with h3; rw [← h3]
            subst hh2
            exact ⟨rfl, fun q _ => rfl⟩
        | cons r ks' =>
            have hs : saveAll HistoryFile.absent (r :: ks')
                = .ok (.wellFormed (r :: ks')) := by
              show saveAll (.wellFormed [r]) ks' = _
              rw [saveAll_wellFormed]
              simp
            rw [hs] at hsave
            have hh2 : h2 = .wellFormed (r :: ks') := by
              injection hsave with h3; rw [← h3]
            subst hh2
            constructor
            · show Except.ok ((r :: ks').filter fun s => s.test_file == p) = _
              rw [filter_matches_self hks]
            · intro q hq
              show Except.ok ((r :: ks').filter fun s => s.test_file == q) = .ok []
              rw [filter_matches_nil fun s hs2 => by rw [hks s hs2]; exact hq.symm]
    | wellFormed l =>
        have hl : (l.filter fun s => s.test_file == p) = [] := by
          injection hq0
        rw [saveAll_wellFormed] at hsave
        have hh2 : h2 = .wellFormed (l ++ ks) := by
          injection hsave with h3; rw [← h3]
        subst hh2
        constructor
        · show Except.ok ((l ++ ks).filter fun s => s.test_file == p) = _
          rw [List.filter_append, hl, filter_matches_self hks]
          rfl
        · intro q hq
          show Except.ok ((l ++ ks).filter fun s => s.test_file == q)
              = Except.ok (l.filter fun s => s.test_file == q)
          have hknil : (ks.filter fun s => s.test_file == q) = [] :=
            filter_matches_nil fun s hs2 => by rw [hks s hs2]; exact hq.symm
          rw [List.filter_append, hknil]
          simp

/-- Witness for C6: one append to an empty store makes the appended
record the last (and only) query result for its path. -/
theorem claim6_witness :
    ∃ l, queryHistory (.wellFormed [exampleRecord]) exampleRecord.test_file
          = .ok l
        ∧ l.getLast? = some exampleRecord :=
  claim6_history_roundtrip.1 .absent (.wellFormed [exampleRecord])
    exampleRecord rfl

/-- Claim C7 (corrected): the session performs its steps in a fixed
order, but module loading (executing the unit's top-level code) happens
inside the memory-tracing window and before CPU profiling starts — the
two windows do not bracket the same interval; after a successful load the
remaining steps are: enable CPU profiling, record start time, run the
tests, record end time, disable CPU profiling, read traced memory, stop
memory tracing; a failing load ends the trace right there. -/
theorem claim7_session_order_amended :
    (∀ (fs : FileSystem) (rd : Readings) (path : Str) (st : SysState)
        (m : PyModule),
        fs path = .ok m →
        (run_test_with_profiling fs rd path st).trace
          = [.memStart, .loadModule, .profEnable, .recordStartTime,
             .callTests, .recordEndTime, .profDisable, .memRead, .memStop])
    ∧ (∀ (fs : FileSystem) (rd : Readings) (path : Str) (st : SysState)
          (e : Str),
        fs path = .err e →
        (run_test_with_profiling fs rd path st).trace
          = [.memStart, .loadModule]) := by
  constructor
  · intro fs rd path st m h
    rw [run_ok h]
  · intro fs rd path st e h
    rw [run_result_err h]

/-- Witness for C7 (amended): the trace of a concrete successful run. -/
theorem claim7_witness :
    (run_test_with_profiling fsExample rd0 "sample.py".data st0).trace
      = [.memStart, .loadModule, .profEnable, .recordStartTime,
         .callTests, .recordEndTime, .profDisable, .memRead, .memStop] :=
  claim7_session_order_amended.1 fsExample rd0 "sample.py".data st0
    exampleModule rfl

/-- Counterexample to C7 as stated: on a concrete successful run the
step trace is not the claimed eight-step sequence — the module load sits
strictly between the start of memory tracing and the enabling of CPU
profiling, i.e. inside the memory window but outside the CPU window. -/
theorem claim7_counterexample :
    (run_test_with_profiling fsExample rd0 "sample.py".data st0).trace
        ≠ claimedSessionOrder
      ∧ ∃ pre post,
          (run_test_with_profiling fsExample rd0 "sample.py".data st0).trace
              = pre ++ Event.loadModule :: post
            ∧ Event.memStart ∈ pre
            ∧ Event.profEnable ∈ post
            ∧ Event.memStop ∈ post := by
  refine ⟨by decide, [Event.memStart],
    [.profEnable, .recordStartTime, .callTests, .recordEndTime,
     .profDisable, .memRead, .memStop], by decide, by decide, by decide,
    by decide⟩

/-- Claim C8: querying the history returns exactly the persisted records
whose path matches, in persisted order (a sublist of the store), and an
empty sequence — not an error — when nothing matches or no store
exists. -/
theorem claim8_query_total :
    (∀ p : Str, queryHistory .absent p = .ok [])
    ∧ (∀ (rs : List ProfileRecord) (p : Str), ∃ l : List ProfileRecord,
        queryHistory (.wellFormed rs) p = .ok l
          ∧ l.Sublist rs
          ∧ (∀ r ∈ l, r.test_file = p)
          ∧ (∀ r ∈ rs, r.test_file = p → r ∈ l))
    ∧ (∀ (rs : List ProfileRecord) (p : Str),
        (∀ r ∈ rs, r.test_file ≠ p) →
        queryHistory (.wellFormed rs) p = .ok []) := by
  refine ⟨fun p => rfl, ?_, ?_⟩
  · intro rs p
    refine ⟨rs.filter fun r => r.test_file == p, rfl,
      List.filter_sublist rs, ?_, ?_⟩
    · intro r hr
      exact beq_iff_eq.mp (List.mem_filter.mp hr).2
    · intro r hr hrp
      exact List.mem_filter.mpr ⟨hr, beq_iff_eq.mpr hrp⟩
  · intro rs p h
    show Except.ok (rs.filter fun r => r.test_file == p) = .ok []
    rw [filter_matches_nil h]

/-- Witness for C8: querying a path with no matching records returns the
empty sequence. -/
theorem claim8_witness :
    queryHistory (.wellFormed []) "missing.py".data = .ok [] :=
  claim8_query_total.2.2 [] "missing.py".data
    fun r hr => absurd hr (List.not_mem_nil r)

/-- Claim C9: when the collaborator request fails — network error or
non-2xx status — `analyze_with_llm` does not raise: provided the call
reached the request at all (in `standard` mode the source file read that
precedes the request must succeed), it returns the analysis string with
the error message embedded. -/
theorem claim9_llm_failure_recovered :
    ∀ (ty : AnalysisType) (srcText : Option Str) (msg : Str),
      (ty = .standard → srcText.isSome = true) →
      analyze_with_llm ty srcText (.netError msg)
          = .ok ("Error analyzing with LLM: ".data ++ msg)
        ∧ analyze_with_llm ty srcText (.httpError msg)
          = .ok ("Error analyzing with LLM: ".data ++ msg) := by
  intro ty srcText msg hstd
  cases ty with
  | comparative => exact ⟨rfl, rfl⟩
  | pattern => exact ⟨rfl, rfl⟩
  | standard =>
      cases srcText with
      | none => exact absurd (hstd rfl) (by simp)
      | some s => exact ⟨rfl, rfl⟩

/-- Witness for C9: a concrete failed request in `standard` mode with a
readable source file yields the embedded error string. -/
theorem claim9_witness :
    analyze_with_llm .standard (some []) (.netError "boom".data)
      = .ok ("Error analyzing with LLM: ".data ++ "boom".data) :=
  (claim9_llm_failure_recovered .standard (some []) "boom".data
    fun _ => rfl).1

/-- Claim C10: every load writes `sys.modules["test_module"]` — one fixed
key — so the comparison's second candidate overwrites the first
candidate's entry; and discovery enumerates via `dir()`, so outcomes are
sorted by ascending lexicographic name order, not definition order (the
example unit defines `test_ok` first but `test_fail` is reported
first). -/
theorem claim10_global_registration_and_order :
    (∀ (fs : FileSystem) (rd : Readings) (path : Str) (st : SysState),
        (run_test_with_profiling fs rd path st).state.testModuleEntry
          = some path)
    ∧ (∀ (fs : FileSystem) (rd : Readings) (http : HttpOutcome)
          (f1 f2 : Str) (st : SysState) (m1 : PyModule),
        fs f1 = .ok m1 →
        (compare_implementations fs rd http f1 f2 st).state.testModuleEntry
          = some f2)
    ∧ (∀ m : PyModule,
        List.Sorted (· ≤ ·) ((runTests m).map TestOutcome.name))
    ∧ (runTests exampleModule).map TestOutcome.name
        = ["test_fail".data, "test_ok".data] := by
  refine ⟨?_, ?_, ?_, by decide⟩
  · intro fs rd path st
    unfold run_test_with_profiling
    cases fs path <;> rfl
  · intro fs rd http f1 f2 st m1 h1
    cases h2 : fs f2 with
    | ok m2 => rw [compare_ok h1 h2]
    | err e => rw [compare_err2 h1 h2]
  · intro m
    rw [runTests_names]
    exact testNames_sorted m

/-- Witness for C10: a concrete comparison leaves the second candidate's
module under the fixed key. -/
theorem claim10_witness :
    (compare_implementations fsExample rd0 httpOk0 "a.py".data "b.py".data
        st0).state.testModuleEntry = some "b.py".data :=
  claim10_global_registration_and_order.2.1 fsExample rd0 httpOk0
    "a.py".data "b.py".data st0 exampleModule rfl

end Claims

end DCA
